import Mathlib

set_option maxHeartbeats 1000000

/-!
Verification development for the `gurtle-the-server` leaderboard service
(`src/main.rs`). The service stores score entries in an external document
collection and exposes three handlers: `get_scores` (top-10 in a time
window), `get_position` (1-indexed rank for a score), and `submit_score`
(hash-validated submission). External collaborators (the MongoDB driver,
the `sha256` crate, `chrono` rendering) are modelled explicitly below,
faithful to their documented behaviour at the call sites used by the code.
-/

namespace sha256

/-! Model of the `sha256` crate's `digest` function as called by
`submit_score`: SHA-256 (FIPS 180-4) of the UTF-8 bytes of the input
string, rendered as lowercase hexadecimal. Machine words are `Nat`
reduced modulo `2^32`. -/

/-- `2^32`, the modulus for 32-bit words. -/
def M : Nat := 4294967296

/-- 32-bit modular addition. -/
def add32 (a b : Nat) : Nat := (a + b) % M

/-- Rotate a 32-bit word right by `k` bits. -/
def rotr (k n : Nat) : Nat := ((n >>> k) ||| (n <<< (32 - k))) % M

/-- Logical right shift of a 32-bit word. -/
def shr (k n : Nat) : Nat := n >>> k

/-- SHA-256 big sigma 0. -/
def bsig0 (x : Nat) : Nat := (rotr 2 x) ^^^ (rotr 13 x) ^^^ (rotr 22 x)

/-- SHA-256 big sigma 1. -/
def bsig1 (x : Nat) : Nat := (rotr 6 x) ^^^ (rotr 11 x) ^^^ (rotr 25 x)

/-- SHA-256 small sigma 0. -/
def ssig0 (x : Nat) : Nat := (rotr 7 x) ^^^ (rotr 18 x) ^^^ (shr 3 x)

/-- SHA-256 small sigma 1. -/
def ssig1 (x : Nat) : Nat := (rotr 17 x) ^^^ (rotr 19 x) ^^^ (shr 10 x)

/-- SHA-256 choice function; `¬x` is `x ^^^ 0xffffffff` on 32-bit words. -/
def ch (x y z : Nat) : Nat := (x &&& y) ^^^ ((x ^^^ 0xffffffff) &&& z)

/-- SHA-256 majority function. -/
def maj (x y z : Nat) : Nat := (x &&& y) ^^^ (x &&& z) ^^^ (y &&& z)

/-- The 64 SHA-256 round constants of FIPS 180-4, in decimal. -/
def K : List Nat :=
  [1116352408, 1899447441, 3049323471, 3921009573, 961987163, 1508970993,
   2453635748, 2870763221, 3624381080, 310598401, 607225278, 1426881987,
   1925078388, 2162078206, 2614888103, 3248222580, 3835390401, 4022224774,
   264347078, 604807628, 770255983, 1249150122, 1555081692, 1996064986,
   2554220882, 2821834349, 2952996808, 3210313671, 3336571891, 3584528711,
   113926993, 338241895, 666307205, 773529912, 1294757372, 1396182291,
   1695183700, 1986661051, 2177026350, 2456956037, 2730485921, 2820302411,
   3259730800, 3345764771, 3516065817, 3600352804, 4094571909, 275423344,
   430227734, 506948616, 659060556, 883997877, 958139571, 1322822218,
   1537002063, 1747873779, 1955562222, 2024104815, 2227730452, 2361852424,
   2428436474, 2756734187, 3204031479, 3329325298]

/-- The SHA-256 initial hash value of FIPS 180-4, in decimal. -/
def H0 : List Nat :=
  [1779033703, 3144134277, 1013904242, 2773480762,
   1359893119, 2600822924, 528734635, 1541459225]

/-- UTF-8 encoding of a single character as a list of bytes. -/
def utf8EncodeChar (c : Char) : List Nat :=
  let n := c.toNat
  if n < 0x80 then [n]
  else if n < 0x800 then
    [0xC0 ||| (n >>> 6), 0x80 ||| (n &&& 0x3F)]
  else if n < 0x10000 then
    [0xE0 ||| (n >>> 12), 0x80 ||| ((n >>> 6) &&& 0x3F), 0x80 ||| (n &&& 0x3F)]
  else
    [0xF0 ||| (n >>> 18), 0x80 ||| ((n >>> 12) &&& 0x3F),
     0x80 ||| ((n >>> 6) &&& 0x3F), 0x80 ||| (n &&& 0x3F)]

/-- UTF-8 bytes of a string. -/
def toBytes (s : String) : List Nat := s.data.flatMap utf8EncodeChar

/-- `k` bytes of `n` in big-endian order. -/
def beBytes : Nat → Nat → List Nat
  | 0, _ => []
  | k + 1, n => beBytes k (n >>> 8) ++ [n % 256]

/-- SHA-256 padding: append `0x80`, zero bytes to 56 mod 64, then the
64-bit big-endian bit length. -/
def pad (msg : List Nat) : List Nat :=
  let L := msg.length
  let zeros := (64 - (L + 9) % 64) % 64
  msg ++ 0x80 :: (List.replicate zeros 0 ++ beBytes 8 (8 * L))

/-- Group bytes into 32-bit big-endian words. -/
def toWords : List Nat → List Nat
  | a :: b :: c :: d :: rest => ((a <<< 24) ||| (b <<< 16) ||| (c <<< 8) ||| d) :: toWords rest
  | _ => []

/-- One step of the message-schedule extension. -/
def extendStep (w : List Nat) : List Nat :=
  let n := w.length
  w ++ [add32 (add32 (ssig1 (w.getD (n - 2) 0)) (w.getD (n - 7) 0))
              (add32 (ssig0 (w.getD (n - 15) 0)) (w.getD (n - 16) 0))]

/-- Extend 16 schedule words to 64. -/
def extend (w : List Nat) : List Nat :=
  (List.range 48).foldl (fun acc _ => extendStep acc) w

/-- The eight working variables of the compression loop. -/
structure Vars where
  a : Nat
  b : Nat
  c : Nat
  d : Nat
  e : Nat
  f : Nat
  g : Nat
  h : Nat

/-- One round of the SHA-256 compression function. -/
def round (s : Vars) (ki wi : Nat) : Vars :=
  let t1 := add32 s.h (add32 (bsig1 s.e) (add32 (ch s.e s.f s.g) (add32 ki wi)))
  let t2 := add32 (bsig0 s.a) (maj s.a s.b s.c)
  ⟨add32 t1 t2, s.a, s.b, s.c, add32 s.d t1, s.e, s.f, s.g⟩

/-- Process one 64-byte chunk, updating the eight hash words. -/
def processChunk (hs : List Nat) (chunk : List Nat) : List Nat :=
  let w := extend (toWords chunk)
  let init : Vars :=
    ⟨hs.getD 0 0, hs.getD 1 0, hs.getD 2 0, hs.getD 3 0,
     hs.getD 4 0, hs.getD 5 0, hs.getD 6 0, hs.getD 7 0⟩
  let s := (K.zip w).foldl (fun s p => round s p.1 p.2) init
  [add32 (hs.getD 0 0) s.a, add32 (hs.getD 1 0) s.b, add32 (hs.getD 2 0) s.c,
   add32 (hs.getD 3 0) s.d, add32 (hs.getD 4 0) s.e, add32 (hs.getD 5 0) s.f,
   add32 (hs.getD 6 0) s.g, add32 (hs.getD 7 0) s.h]

/-- Split a byte list into 64-byte chunks. The first argument is fuel
bounding the recursion depth; each step consumes at least one byte, so
the byte count is always enough fuel. -/
def chunksOf : Nat → List Nat → List (List Nat)
  | 0, _ => []
  | _, [] => []
  | fuel + 1, x :: xs => ((x :: xs).take 64) :: chunksOf fuel ((x :: xs).drop 64)

/-- `k` lowercase hex digits of `n`, most significant first. -/
def hexChars : Nat → Nat → List Char
  | 0, _ => []
  | k + 1, n => hexChars k (n >>> 4) ++ [Nat.digitChar (n % 16)]

/-- SHA-256 of a byte list, as the final eight 32-bit hash words. -/
def digestWords (msg : List Nat) : List Nat :=
  (chunksOf (pad msg).length (pad msg)).foldl processChunk H0

/-- Model of `sha256::digest`: lowercase hex SHA-256 of the UTF-8 bytes. -/
def digest (s : String) : String :=
  ⟨(digestWords (toBytes s)).flatMap (hexChars 8)⟩

end sha256

namespace Gurtle

/-- chrono's `Duration::weeks`: a span of `w * 604800` seconds (durations
are modelled as a signed number of seconds). -/
def Duration.weeks (w : Int) : Int := w * 604800

/-- chrono's `Duration::days`: a span of `d * 86400` seconds. -/
def Duration.days (d : Int) : Int := d * 86400

/-- A stored score record (`struct Entry` in `main.rs`). -/
structure Entry where
  name : String
  score : Int
  datetime : String
deriving DecidableEq, Repr

/-- The wire input of a submission (`struct SubmittedEntry`): it has no
`datetime` field. -/
structure SubmittedEntry where
  name : String
  score : Int
  hash : String
deriving DecidableEq, Repr

/-- The rank-query result (`struct Position`). -/
structure Position where
  position : Nat
deriving DecidableEq, Repr

/-- An HTTP response: status code and plain body. -/
structure HttpResponse where
  status : Nat
  body : String
deriving DecidableEq, Repr

/-- The shape of every `doc!` filter built by the handlers: an optional
`datetime >= bound` condition and an optional `score >= s` condition
(both absent = the empty filter `doc! {}`). -/
structure Filter where
  datetimeGte : Option String
  scoreGte : Option Int
deriving DecidableEq, Repr

/-- Lexicographic (codepoint-order) comparison of character lists, the
order MongoDB's binary string comparison induces on UTF-8 text. -/
def charListLe : List Char → List Char → Bool
  | [], _ => true
  | _ :: _, [] => false
  | a :: as, b :: bs =>
    if a < b then true else if b < a then false else charListLe as bs

/-- MongoDB's `$gte`-comparison on string fields: byte-order comparison
of the UTF-8 encodings, which coincides with codepoint-order comparison
of the characters. -/
def strLe (s t : String) : Bool := charListLe s.data t.data

/-- MongoDB filter semantics at the documents stored by this service:
`$gte` on the string field `datetime` is byte-order string comparison,
`$gte` on the integer field `score` is integer comparison; both
conditions of one `doc!` must hold. -/
def Filter.matches (f : Filter) (e : Entry) : Bool :=
  (match f.datetimeGte with
   | none => true
   | some bound => strLe bound e.datetime) &&
  (match f.scoreGte with
   | none => true
   | some s => decide (s ≤ e.score))

/-- The store: the `scores` collection modelled as the list of its
documents in insertion order. `find` with `FindOptions` sorting by
`score` ascending and a limit: the matching documents, sorted ascending
by `score`, truncated to `limit`. -/
def find (store : List Entry) (f : Filter) (limit : Nat) : List Entry :=
  ((store.filter f.matches).mergeSort (fun a b => decide (a.score ≤ b.score))).take limit

/-- `count_documents`: the number of documents matching the filter. -/
def count_documents (store : List Entry) (f : Filter) : Nat :=
  (store.filter f.matches).length

/-- `insert_one`: append a document to the collection. -/
def insert_one (store : List Entry) (e : Entry) : List Entry :=
  store ++ [e]

/-- The `beginning` computation of `get_scores` (`main.rs` lines 37-42):
`now - Duration::weeks(1)` for `"weekly"`, `now - Duration::weeks(4)` for
`"monthly"`, `now` otherwise. Instants are seconds since the epoch. -/
def get_scores_beginning (duration : String) (now : Int) : Int :=
  match duration with
  | "weekly" => now - Duration.weeks 1
  | "monthly" => now - Duration.weeks 4
  | _ => now

/-- The filter construction of `get_scores` (lines 44-49): `doc! {}` for
`"alltime"`, `doc! { "datetime": { "$gte": beginning.to_string() } }` for
every other duration. -/
def get_scores_filter (duration : String) (beginningStr : String) : Filter :=
  match duration with
  | "alltime" => { datetimeGte := none, scoreGte := none }
  | _ => { datetimeGte := some beginningStr, scoreGte := none }

/-- The `get_scores` handler's query (lines 34-60): compute `beginning`,
build the filter, and run `find` sorted ascending by `score` with limit
10. `render` stands for `to_string()` on instants. -/
def get_scores (render : Int → String) (store : List Entry) (duration : String)
    (now : Int) : List Entry :=
  find store (get_scores_filter duration (render (get_scores_beginning duration now))) 10

/-- The `beginning` computation of `get_position` (lines 66-71), textually
identical to the one in `get_scores`. -/
def get_position_beginning (duration : String) (now : Int) : Int :=
  match duration with
  | "weekly" => now - Duration.weeks 1
  | "monthly" => now - Duration.weeks 4
  | _ => now

/-- The filter construction of `get_position` (lines 72-78):
`doc! { "score": {"$gte": score} }` for `"alltime"`, additionally
`"datetime": { "$gte": beginning.to_string() }` otherwise. -/
def get_position_filter (duration : String) (score : Int) (beginningStr : String) : Filter :=
  match duration with
  | "alltime" => { datetimeGte := none, scoreGte := some score }
  | _ => { datetimeGte := some beginningStr, scoreGte := some score }

/-- The `get_position` handler's result (line 79): the matching document
count plus one. -/
def get_position (render : Int → String) (store : List Entry) (duration : String)
    (score : Int) (now : Int) : Nat :=
  count_documents store
    (get_position_filter duration score (render (get_position_beginning duration now))) + 1

/-- Outcome of a read handler: either an HTTP response with a JSON value,
or a panic of the worker (the code calls `.unwrap()` on store results). -/
inductive Outcome (α : Type) where
  | panicked
  | ok (status : Nat) (val : α)
deriving DecidableEq, Repr

/-- `get_scores`' handling of the store read (lines 54-59): `.unwrap()`
panics on a failed `find`/`try_next`, otherwise the handler replies
`HttpResponse::Ok().json(scores)`. -/
def get_scores_outcome (queryResult : Except String (List Entry)) : Outcome (List Entry) :=
  match queryResult with
  | .error _ => .panicked
  | .ok scores => .ok 200 scores

/-- `get_position`'s handling of the store count (line 79): `.unwrap()`
panics on a failed `count_documents`, otherwise the handler replies
`HttpResponse::Ok().json(Position { position: count + 1 })`. -/
def get_position_outcome (countResult : Except String Nat) : Outcome Position :=
  match countResult with
  | .error _ => .panicked
  | .ok n => .ok 200 ⟨n + 1⟩

/-- The `submit_score` handler (lines 83-101). `render now` is
`Utc::now().to_string()`; `insertResult` is the outcome `insert_one`
would report for the entry handed to it. Returns the HTTP response and
the entry handed to the store (`none` when no insert was attempted; the
handler attempts at most one insert and never retries). -/
def submit_score (render : Int → String) (now : Int)
    (insertResult : Entry → Except String Unit) (submitted : SubmittedEntry) :
    HttpResponse × Option Entry :=
  let value := sha256.digest (submitted.name ++ "TheTurtle" ++ toString submitted.score)
  if value ≠ submitted.hash then
    ({ status := 403, body := "Score rejected: Invalid hash" }, none)
  else
    let data : Entry :=
      { name := submitted.name, score := submitted.score, datetime := render now }
    match insertResult data with
    | .ok _ => ({ status := 200, body := "Score added" }, some data)
    | .error err => ({ status := 500, body := err }, some data)

/-- `submit_score` acting on the store state when the insert succeeds:
rejected submissions leave the store unchanged, accepted ones append the
new entry via `insert_one`. -/
def submit_score_store (render : Int → String) (now : Int) (submitted : SubmittedEntry)
    (store : List Entry) : HttpResponse × List Entry :=
  let value := sha256.digest (submitted.name ++ "TheTurtle" ++ toString submitted.score)
  if value ≠ submitted.hash then
    ({ status := 403, body := "Score rejected: Invalid hash" }, store)
  else
    ({ status := 200, body := "Score added" },
     insert_one store { name := submitted.name, score := submitted.score, datetime := render now })

/-! ### chrono `DateTime<Utc>` rendering

`submit_score` stores `Utc::now().to_string()` and both read handlers
compare against `beginning.to_string()`. chrono's `Display` for
`DateTime<Utc>` renders `YYYY-MM-DD hh:mm:ss[.frac] UTC` where the
fractional part is omitted when the nanosecond count is zero and
otherwise printed with 3, 6 or 9 digits (trailing zero blocks of three
are dropped). We model the timestamp by its displayed calendar fields. -/

/-- A calendar timestamp as chrono's `DateTime<Utc>` displays it. -/
structure DateTime where
  year : Nat
  month : Nat
  day : Nat
  hour : Nat
  minute : Nat
  second : Nat
  nanos : Nat
deriving DecidableEq, Repr

/-- The fields fit their displayed widths: chrono zero-pads the year to
four digits (years of `Utc::now()` lie in `0..9999`), the other fields
to two, and sub-second nanoseconds are below `10^9` (leap-second
representations, which chrono encodes as `nanos >= 10^9`, excluded). -/
def DateTime.valid (t : DateTime) : Prop :=
  t.year < 10000 ∧ t.month < 100 ∧ t.day < 100 ∧ t.hour < 100 ∧
    t.minute < 100 ∧ t.second < 100 ∧ t.nanos < 1000000000

instance (t : DateTime) : Decidable t.valid := by
  unfold DateTime.valid; infer_instance

/-- Chronological order on displayed timestamps: lexicographic on the
calendar fields, most significant first. -/
def DateTime.chronoLt (t1 t2 : DateTime) : Prop :=
  t1.year < t2.year ∨ (t1.year = t2.year ∧ (t1.month < t2.month ∨ (t1.month = t2.month ∧
    (t1.day < t2.day ∨ (t1.day = t2.day ∧ (t1.hour < t2.hour ∨ (t1.hour = t2.hour ∧
      (t1.minute < t2.minute ∨ (t1.minute = t2.minute ∧ (t1.second < t2.second ∨
        (t1.second = t2.second ∧ t1.nanos < t2.nanos)))))))))))

instance (t1 t2 : DateTime) : Decidable (t1.chronoLt t2) := by
  unfold DateTime.chronoLt; infer_instance

/-- Non-strict chronological order. -/
def DateTime.chronoLe (t1 t2 : DateTime) : Prop :=
  t1.chronoLt t2 ∨ t1 = t2

instance (t1 t2 : DateTime) : Decidable (t1.chronoLe t2) := by
  unfold DateTime.chronoLe; infer_instance

/-- `k`-digit zero-padded decimal rendering of `n`, most significant
digit first (the `{:0k}` format chrono uses for each field). -/
def padDigits : Nat → Nat → List Char
  | 0, _ => []
  | k + 1, n => Nat.digitChar (n / 10 ^ k) :: padDigits k (n % 10 ^ k)

/-- chrono's fractional-second rendering: nothing for zero nanoseconds,
otherwise a dot followed by 3, 6 or 9 digits depending on which trailing
blocks of the nanosecond count are zero. -/
def fracChars (n : Nat) : List Char :=
  if n = 0 then []
  else if n % 1000000 = 0 then '.' :: padDigits 3 (n / 1000000)
  else if n % 1000 = 0 then '.' :: padDigits 6 (n / 1000)
  else '.' :: padDigits 9 n

/-- The character sequence of chrono's `DateTime<Utc>` display:
`YYYY-MM-DD hh:mm:ss[.frac] UTC`. -/
def renderChars (t : DateTime) : List Char :=
  padDigits 4 t.year ++ '-' :: (padDigits 2 t.month ++ '-' :: (padDigits 2 t.day ++
    ' ' :: (padDigits 2 t.hour ++ ':' :: (padDigits 2 t.minute ++ ':' ::
      (padDigits 2 t.second ++ (fracChars t.nanos ++ ' ' :: ['U', 'T', 'C']))))))

/-- `DateTime<Utc>::to_string()`: the string form of `renderChars`. -/
def render (t : DateTime) : String :=
  ⟨renderChars t⟩

/-! ### Lexicographic monotonicity of the rendering -/

/-- Appending a common front list preserves strict lexicographic order. -/
theorem lex_append_same (u : List Char) {s t : List Char}
    (h : List.Lex (· < ·) s t) : List.Lex (· < ·) (u ++ s) (u ++ t) := by
  induction u with
  | nil => exact h
  | cons a u ih => exact List.Lex.cons ih

/-- The filter's byte-order comparison agrees with the absence of a
strict lexicographic descent. -/
theorem charListLe_iff (l1 : List Char) : ∀ l2 : List Char,
    charListLe l1 l2 = true ↔ ¬ List.Lex (· < ·) l2 l1 := by
  induction l1 with
  | nil =>
    intro l2
    simp only [charListLe]
    exact ⟨fun _ h => List.Lex.not_nil_right _ _ h, fun _ => True.intro⟩
  | cons a as ih =>
    intro l2
    cases l2 with
    | nil =>
      simp only [charListLe]
      constructor
      · intro h; cases h
      · intro h; exact absurd List.Lex.nil h
    | cons b bs =>
      simp only [charListLe]
      rcases lt_trichotomy a b with hab | hab | hab
      · rw [if_pos hab]
        constructor
        · intro _ h
          cases h with
          | rel h' => exact absurd hab (lt_asymm h')
          | cons h' => exact absurd hab (lt_irrefl a)
        · intro _; rfl
      · subst hab
        rw [if_neg (lt_irrefl a), if_neg (lt_irrefl a)]
        rw [ih bs]
        constructor
        · intro h hl
          cases hl with
          | rel h' => exact absurd h' (lt_irrefl a)
          | cons h' => exact h h'
        · intro h hl
          exact h (List.Lex.cons hl)
      · rw [if_neg (lt_asymm hab), if_pos hab]
        constructor
        · intro h; cases h
        · intro h
          exact absurd (List.Lex.rel hab) h

/-- `strLe` is the order relation `≤` on strings. -/
theorem strLe_iff_le (s t : String) : strLe s t = true ↔ s ≤ t := by
  unfold strLe
  rw [charListLe_iff]
  have hlt : (t.toList < s.toList) = List.Lex (· < ·) t.data s.data := rfl
  rw [← not_lt (α := String)]
  constructor
  · intro h hts
    exact h (by rw [← hlt]; exact (String.lt_iff_toList_lt).mp hts)
  · intro h hl
    exact h ((String.lt_iff_toList_lt).mpr (by rw [hlt]; exact hl))

/-- Strict string order from a computable `strLe` refutation. -/
theorem strLt_of (s t : String) (h2 : strLe t s = false) : s < t := by
  rcases lt_or_le s t with h | h
  · exact h
  · have := (strLe_iff_le t s).mpr h
    rw [this] at h2
    cases h2

/-- Decimal digit characters compare like the digits they render. -/
theorem digitChar_lt_digitChar {a b : Nat} (hab : a < b) (hb : b < 10) :
    Nat.digitChar a < Nat.digitChar b := by
  have ha : a < 10 := lt_trans hab hb
  interval_cases a <;> interval_cases b <;> simp_all <;> decide

/-- A space compares below every decimal digit character. -/
theorem space_lt_digitChar {d : Nat} (hd : d < 10) : (' ' : Char) < Nat.digitChar d := by
  interval_cases d <;> decide

/-- Fixed-width zero-padded decimal renderings of `a < b` are strictly
lexicographically ordered, whatever follows them. -/
theorem lex_padDigits (w : Nat) : ∀ {a b : Nat} (s t : List Char), a < b → b < 10 ^ w →
    List.Lex (· < ·) (padDigits w a ++ s) (padDigits w b ++ t) := by
  induction w with
  | zero =>
    intro a b s t hab hb
    simp only [pow_zero] at hb
    omega
  | succ w ih =>
    intro a b s t hab hb
    simp only [padDigits, List.cons_append]
    have hpow : (10 : Nat) ^ (w + 1) = 10 ^ w * 10 := pow_succ 10 w
    have hppos : 0 < (10 : Nat) ^ w := Nat.pos_pow_of_pos w (by omega)
    have hbq : b / 10 ^ w < 10 := by
      rw [Nat.div_lt_iff_lt_mul hppos]
      omega
    have hq : a / 10 ^ w ≤ b / 10 ^ w := Nat.div_le_div_right (le_of_lt hab)
    rcases lt_or_eq_of_le hq with hlt | heq
    · exact List.Lex.rel (digitChar_lt_digitChar hlt hbq)
    · rw [heq]
      refine List.Lex.cons (ih s t ?_ (Nat.mod_lt _ hppos))
      have h1 := Nat.div_add_mod a (10 ^ w)
      have h2 := Nat.div_add_mod b (10 ^ w)
      rw [heq] at h1
      omega

/-- Core lemma for the fractional part: two nanosecond counts `m1 < m2`
below `10 ^ w`, each rendered after exact removal of `k` trailing zero
digits (leaving `j = w - k` digits) and followed by a space, are strictly
lexicographically ordered. -/
theorem lex_truncDigits (w : Nat) : ∀ {j1 k1 j2 k2 m1 m2 : Nat} (rest : List Char),
    j1 + k1 = w → j2 + k2 = w → 10 ^ k1 ∣ m1 → 10 ^ k2 ∣ m2 → m1 < m2 → m2 < 10 ^ w →
    List.Lex (· < ·) (padDigits j1 (m1 / 10 ^ k1) ++ ' ' :: rest)
      (padDigits j2 (m2 / 10 ^ k2) ++ ' ' :: rest) := by
  induction w with
  | zero =>
    intro j1 k1 j2 k2 m1 m2 rest hj1 hj2 hd1 hd2 hlt hub
    simp only [pow_zero] at hub
    omega
  | succ w ih =>
    intro j1 k1 j2 k2 m1 m2 rest hj1 hj2 hd1 hd2 hlt hub
    have hppos : 0 < (10 : Nat) ^ w := Nat.pos_pow_of_pos w (by omega)
    have hpow : (10 : Nat) ^ (w + 1) = 10 ^ w * 10 := pow_succ 10 w
    rcases j2 with _ | j2
    · -- the right side keeps no digits: `m2` is divisible by `10 ^ (w+1)`
      -- yet smaller than it, so `m2 = 0`, contradicting `m1 < m2`.
      have hk2 : k2 = w + 1 := by omega
      rw [hk2] at hd2
      have : m2 = 0 := Nat.eq_zero_of_dvd_of_lt hd2 hub
      omega
    rcases j1 with _ | j1
    · -- the left side keeps no digits and starts with the space, the
      -- right side starts with a digit.
      simp only [padDigits, List.nil_append, List.cons_append]
      have hq2 : m2 / 10 ^ k2 / 10 ^ j2 < 10 := by
        rw [Nat.div_div_eq_div_mul, ← pow_add]
        have hk : k2 + j2 = w := by omega
        rw [hk]
        rw [Nat.div_lt_iff_lt_mul hppos]
        omega
      exact List.Lex.rel (space_lt_digitChar hq2)
    · -- both sides keep at least one digit; the leading digits are the
      -- leading digits of `m1` and `m2` themselves.
      simp only [padDigits, List.cons_append]
      have hw1 : k1 + j1 = w := by omega
      have hw2 : k2 + j2 = w := by omega
      have he1 : m1 / 10 ^ k1 / 10 ^ j1 = m1 / 10 ^ w := by
        rw [Nat.div_div_eq_div_mul, ← pow_add, hw1]
      have he2 : m2 / 10 ^ k2 / 10 ^ j2 = m2 / 10 ^ w := by
        rw [Nat.div_div_eq_div_mul, ← pow_add, hw2]
      rw [he1, he2]
      have hbq : m2 / 10 ^ w < 10 := by
        rw [Nat.div_lt_iff_lt_mul hppos]
        omega
      have hq : m1 / 10 ^ w ≤ m2 / 10 ^ w := Nat.div_le_div_right (le_of_lt hlt)
      rcases lt_or_eq_of_le hq with hlt' | heq
      · exact List.Lex.rel (digitChar_lt_digitChar hlt' hbq)
      · rw [heq]
        refine List.Lex.cons ?_
        have hm1 : m1 / 10 ^ k1 % 10 ^ j1 = m1 % 10 ^ w / 10 ^ k1 := by
          rw [show (10 : Nat) ^ w = 10 ^ k1 * 10 ^ j1 by rw [← pow_add, hw1]]
          exact (Nat.mod_mul_right_div_self m1 (10 ^ k1) (10 ^ j1)).symm
        have hm2 : m2 / 10 ^ k2 % 10 ^ j2 = m2 % 10 ^ w / 10 ^ k2 := by
          rw [show (10 : Nat) ^ w = 10 ^ k2 * 10 ^ j2 by rw [← pow_add, hw2]]
          exact (Nat.mod_mul_right_div_self m2 (10 ^ k2) (10 ^ j2)).symm
        rw [hm1, hm2]
        have hdvd1 : 10 ^ k1 ∣ m1 % 10 ^ w :=
          (Nat.dvd_mod_iff (pow_dvd_pow 10 (by omega : k1 ≤ w))).mpr hd1
        have hdvd2 : 10 ^ k2 ∣ m2 % 10 ^ w :=
          (Nat.dvd_mod_iff (pow_dvd_pow 10 (by omega : k2 ≤ w))).mpr hd2
        have hlt2 : m1 % 10 ^ w < m2 % 10 ^ w := by
          have h1 := Nat.div_add_mod m1 (10 ^ w)
          have h2 := Nat.div_add_mod m2 (10 ^ w)
          rw [heq] at h1
          omega
        exact ih rest (by omega) (by omega) hdvd1 hdvd2 hlt2 (Nat.mod_lt _ hppos)

/-- The fractional renderings of nanosecond counts `n1 < n2` (each
followed by a space) are strictly lexicographically ordered. -/
theorem lex_fracChars {n1 n2 : Nat} (rest : List Char) (h : n1 < n2)
    (hub : n2 < 1000000000) :
    List.Lex (· < ·) (fracChars n1 ++ ' ' :: rest) (fracChars n2 ++ ' ' :: rest) := by
  have hub9 : n2 < 10 ^ 9 := by norm_num; omega
  have hn2 : ¬ n2 = 0 := by omega
  have key : ∀ m : Nat, ¬ m = 0 → m < 10 ^ 9 → ∃ j k : Nat, j + k = 9 ∧ 10 ^ k ∣ m ∧
      fracChars m = '.' :: padDigits j (m / 10 ^ k) := by
    intro m hm hmub
    unfold fracChars
    rw [if_neg hm]
    by_cases h6 : m % 1000000 = 0
    · refine ⟨3, 6, by omega, ?_, ?_⟩
      · have := Nat.dvd_of_mod_eq_zero h6
        simpa using this
      · rw [if_pos h6]
        norm_num
    · by_cases h3 : m % 1000 = 0
      · refine ⟨6, 3, by omega, ?_, ?_⟩
        · have := Nat.dvd_of_mod_eq_zero h3
          simpa using this
        · rw [if_neg h6, if_pos h3]
          norm_num
      · refine ⟨9, 0, by omega, by simp, ?_⟩
        rw [if_neg h6, if_neg h3]
        norm_num
  obtain ⟨j2, k2, hjk2, hdvd2, heq2⟩ := key n2 hn2 hub9
  by_cases h1 : n1 = 0
  · rw [h1, heq2]
    simp only [fracChars, if_pos rfl, List.nil_append, List.cons_append]
    exact List.Lex.rel (by decide)
  · obtain ⟨j1, k1, hjk1, hdvd1, heq1⟩ := key n1 h1 (by omega)
    rw [heq1, heq2]
    simp only [List.cons_append]
    exact List.Lex.cons (lex_truncDigits 9 rest hjk1 hjk2 hdvd1 hdvd2 h hub9)

/-- Strict monotonicity of the rendering: a chronologically earlier valid
timestamp renders to a lexicographically smaller string. -/
theorem render_lt_of_chronoLt (t1 t2 : DateTime) (h1 : t1.valid) (h2 : t2.valid)
    (h : t1.chronoLt t2) : render t1 < render t2 := by
  obtain ⟨hy1, hmo1, hd1, hh1, hmi1, hs1, hn1⟩ := h1
  obtain ⟨hy2, hmo2, hd2, hh2, hmi2, hs2, hn2⟩ := h2
  have goal' : List.Lex (· < ·) (renderChars t1) (renderChars t2) := by
    unfold DateTime.chronoLt at h
    unfold renderChars
    rcases h with h | ⟨e1, h⟩
    · exact lex_padDigits 4 _ _ h (by norm_num; omega)
    rw [e1]
    refine lex_append_same _ (List.Lex.cons ?_)
    rcases h with h | ⟨e2, h⟩
    · exact lex_padDigits 2 _ _ h (by norm_num; omega)
    rw [e2]
    refine lex_append_same _ (List.Lex.cons ?_)
    rcases h with h | ⟨e3, h⟩
    · exact lex_padDigits 2 _ _ h (by norm_num; omega)
    rw [e3]
    refine lex_append_same _ (List.Lex.cons ?_)
    rcases h with h | ⟨e4, h⟩
    · exact lex_padDigits 2 _ _ h (by norm_num; omega)
    rw [e4]
    refine lex_append_same _ (List.Lex.cons ?_)
    rcases h with h | ⟨e5, h⟩
    · exact lex_padDigits 2 _ _ h (by norm_num; omega)
    rw [e5]
    refine lex_append_same _ (List.Lex.cons ?_)
    rcases h with h | ⟨e6, h⟩
    · exact lex_padDigits 2 _ _ h (by norm_num; omega)
    rw [e6]
    exact lex_append_same _ (lex_fracChars _ h hn2)
  rw [String.lt_iff_toList_lt]
  exact goal'

/-! ### Claims -/

/-- Claim C5: the duration-to-lower-bound mapping used by both
`get_scores` and `get_position` computes `beginning = now - 7 days` for
`"weekly"`, `now - 28 days` for `"monthly"` (the code subtracts
`Duration::weeks(1)` and `Duration::weeks(4)`), and `now` itself for
every other duration string. -/
theorem beginning_mapping (duration : String) (now : Int) :
    (get_scores_beginning "weekly" now = now - Duration.days 7 ∧
      get_position_beginning "weekly" now = now - Duration.days 7) ∧
    (get_scores_beginning "monthly" now = now - Duration.days 28 ∧
      get_position_beginning "monthly" now = now - Duration.days 28) ∧
    (duration ≠ "weekly" → duration ≠ "monthly" →
      get_scores_beginning duration now = now ∧
        get_position_beginning duration now = now) := by
  refine ⟨⟨?_, ?_⟩, ⟨?_, ?_⟩, fun hw hm => ⟨?_, ?_⟩⟩
  · show now - Duration.weeks 1 = now - Duration.days 7
    unfold Duration.weeks Duration.days; norm_num
  · show now - Duration.weeks 1 = now - Duration.days 7
    unfold Duration.weeks Duration.days; norm_num
  · show now - Duration.weeks 4 = now - Duration.days 28
    unfold Duration.weeks Duration.days; norm_num
  · show now - Duration.weeks 4 = now - Duration.days 28
    unfold Duration.weeks Duration.days; norm_num
  · unfold get_scores_beginning
    split <;> simp_all
  · unfold get_position_beginning
    split <;> simp_all

/-- Claim C5 witness: the mapping evaluated at `"alltime"` and a concrete
instant. -/
theorem beginning_mapping_witness :
    get_scores_beginning "alltime" 1000 = 1000 ∧
      get_position_beginning "alltime" 1000 = 1000 :=
  (beginning_mapping "alltime" 1000).2.2 (by decide) (by decide)

/-- Claim C2 counterexample: the claim that every duration outside
`{"weekly","monthly"}` yields the empty filter is false. For the
unrecognized duration `"daily"` the filter built by `get_scores` carries
a `datetime >= beginning` bound, it rejects a stored entry whose
timestamp lies before the bound, and the full handler omits that stored
entry from its result. -/
theorem get_scores_daily_filter_rejects :
    get_scores_filter "daily" "2024-05-01 00:00:00 UTC" ≠
      { datetimeGte := none, scoreGte := none } ∧
    (get_scores_filter "daily" "2024-05-01 00:00:00 UTC").matches
      { name := "Ann", score := 42, datetime := "2020-01-01 00:00:00 UTC" } = false ∧
    get_scores (fun _ => "2024-05-01 00:00:00 UTC")
      [{ name := "Ann", score := 42, datetime := "2020-01-01 00:00:00 UTC" }]
      "daily" 0 = [] := by
  refine ⟨by decide, by decide, ?_⟩
  have hfilter : List.filter (get_scores_filter "daily" "2024-05-01 00:00:00 UTC").matches
      [{ name := "Ann", score := 42, datetime := "2020-01-01 00:00:00 UTC" }] = [] := by
    decide
  show ((List.filter (get_scores_filter "daily" "2024-05-01 00:00:00 UTC").matches
      [{ name := "Ann", score := 42, datetime := "2020-01-01 00:00:00 UTC" }]).mergeSort
        (fun a b => decide (a.score ≤ b.score))).take 10 = []
  rw [hfilter]
  simp

/-- Claim C2, amended: only the literal duration `"alltime"` produces the
empty filter, which matches every stored entry; every other duration
string (the unrecognized ones included) produces the time-windowed filter
`datetime >= beginning`, which rejects every entry whose stored timestamp
is lexicographically below the bound. -/
theorem get_scores_filter_cases (duration bound : String) :
    (duration = "alltime" →
      get_scores_filter duration bound = { datetimeGte := none, scoreGte := none } ∧
        ∀ e : Entry, (get_scores_filter duration bound).matches e = true) ∧
    (duration ≠ "alltime" →
      get_scores_filter duration bound = { datetimeGte := some bound, scoreGte := none } ∧
        ∀ e : Entry, e.datetime < bound →
          (get_scores_filter duration bound).matches e = false) := by
  constructor
  · rintro rfl
    refine ⟨rfl, fun e => rfl⟩
  · intro h
    have hf : get_scores_filter duration bound =
        { datetimeGte := some bound, scoreGte := none } := by
      unfold get_scores_filter
      split <;> simp_all
    refine ⟨hf, fun e hlt => ?_⟩
    rw [hf]
    simp only [Filter.matches, Bool.and_true]
    cases hb : strLe bound e.datetime
    · rfl
    · exact absurd ((strLe_iff_le bound e.datetime).mp hb) (not_le_of_lt hlt)

/-- Claim C2 witness: the amended dichotomy at the duration `"alltime"`
(empty filter matching an old entry) and at `"daily"` (windowed filter
rejecting it). -/
theorem get_scores_filter_cases_witness :
    (get_scores_filter "alltime" "2024-05-01 00:00:00 UTC").matches
      { name := "Ann", score := 42, datetime := "2020-01-01 00:00:00 UTC" } = true ∧
    (get_scores_filter "daily" "2024-05-01 00:00:00 UTC").matches
      { name := "Ann", score := 42, datetime := "2020-01-01 00:00:00 UTC" } = false := by
  constructor
  · exact ((get_scores_filter_cases "alltime" "2024-05-01 00:00:00 UTC").1 rfl).2 _
  · exact ((get_scores_filter_cases "daily" "2024-05-01 00:00:00 UTC").2 (by decide)).2 _
      (strLt_of _ _ (by decide))

/-- Claim C3: for every duration and score threshold `S`, `get_position`
returns `1 +` the count of stored entries with `score >= S` (restricted
to `datetime >=` the window's rendered lower bound when the duration is
not `"alltime"`); in particular, when no entry matches the filter the
returned position is `1`. -/
theorem get_position_rank (render : Int → String) (store : List Entry) (duration : String)
    (S : Int) (now : Int) :
    (duration = "alltime" →
      get_position render store duration S now =
        1 + (store.filter (fun e => decide (S ≤ e.score))).length) ∧
    (duration ≠ "alltime" →
      get_position render store duration S now =
        1 + (store.filter (fun e =>
          decide (S ≤ e.score) &&
            strLe (render (get_position_beginning duration now)) e.datetime)).length) ∧
    (store.filter (get_position_filter duration S
        (render (get_position_beginning duration now))).matches = [] →
      get_position render store duration S now = 1) := by
  refine ⟨?_, ?_, ?_⟩
  · rintro rfl
    unfold get_position count_documents
    have hfe : store.filter (get_position_filter "alltime" S
          (render (get_position_beginning "alltime" now))).matches =
        store.filter (fun e => decide (S ≤ e.score)) := by
      refine List.filter_congr ?_
      intro e _
      simp [get_position_filter, Filter.matches]
    rw [hfe, Nat.add_comm]
  · intro h
    have hf : get_position_filter duration S (render (get_position_beginning duration now)) =
        { datetimeGte := some (render (get_position_beginning duration now)),
          scoreGte := some S } := by
      unfold get_position_filter
      split <;> simp_all
    unfold get_position count_documents
    have hfe : store.filter (get_position_filter duration S
          (render (get_position_beginning duration now))).matches =
        store.filter (fun e => decide (S ≤ e.score) &&
          strLe (render (get_position_beginning duration now)) e.datetime) := by
      refine List.filter_congr ?_
      intro e _
      rw [hf]
      simp only [Filter.matches]
      exact Bool.and_comm _ _
    rw [hfe, Nat.add_comm]
  · intro h
    unfold get_position count_documents
    rw [h]
    rfl

/-- Claim C3 witness: the spec's scenario — scores `[50, 60, 100, 150]`,
threshold `100`, duration `"alltime"` — yields `1 + 2 = 3`. -/
theorem get_position_rank_witness :
    get_position (fun _ => "2024-05-01 00:00:00 UTC")
      [{ name := "a", score := 50, datetime := "d1" }, { name := "b", score := 60, datetime := "d2" },
       { name := "c", score := 100, datetime := "d3" }, { name := "d", score := 150, datetime := "d4" }]
      "alltime" 100 0 = 3 := by
  have h := (get_position_rank (fun _ => "2024-05-01 00:00:00 UTC")
      [{ name := "a", score := 50, datetime := "d1" }, { name := "b", score := 60, datetime := "d2" },
       { name := "c", score := 100, datetime := "d3" }, { name := "d", score := 150, datetime := "d4" }]
      "alltime" 100 0).1 rfl
  rw [h]
  decide

/-- Claim C4: for every duration and store contents, `get_scores` returns
at most 10 entries, sorted ascending by `score`; an empty matching set
yields the empty sequence, not an error. -/
theorem get_scores_top10 (render : Int → String) (store : List Entry) (duration : String)
    (now : Int) :
    (get_scores render store duration now).length ≤ 10 ∧
    List.Sorted (fun a b : Entry => a.score ≤ b.score) (get_scores render store duration now) ∧
    (store.filter (get_scores_filter duration
        (render (get_scores_beginning duration now))).matches = [] →
      get_scores render store duration now = []) := by
  refine ⟨?_, ?_, ?_⟩
  · unfold get_scores find
    exact List.length_take_le _ _
  · unfold get_scores find
    have hsorted := @List.sorted_mergeSort Entry (fun a b => decide (a.score ≤ b.score))
      (fun a b c hab hbc => by
        simp only [decide_eq_true_eq] at *
        exact le_trans hab hbc)
      (fun a b => by
        simp only [Bool.or_eq_true, decide_eq_true_eq]
        exact le_total a.score b.score)
      (store.filter (get_scores_filter duration
        (render (get_scores_beginning duration now))).matches)
    have hsorted2 : List.Pairwise (fun a b : Entry => a.score ≤ b.score)
        ((store.filter (get_scores_filter duration
          (render (get_scores_beginning duration now))).matches).mergeSort
            (fun a b => decide (a.score ≤ b.score))) :=
      hsorted.imp (fun h => of_decide_eq_true h)
    exact List.Pairwise.sublist (List.take_sublist _ _) hsorted2
  · intro h
    unfold get_scores find
    rw [h]
    simp

/-- Claim C4 witness: on the empty store every conjunct holds at a
concrete input, the empty matching set yielding `[]`. -/
theorem get_scores_top10_witness :
    (get_scores (fun _ => "now") [] "alltime" 0).length ≤ 10 ∧
      get_scores (fun _ => "now") [] "alltime" 0 = [] := by
  have h := get_scores_top10 (fun _ => "now") [] "alltime" 0
  exact ⟨h.1, h.2.2 rfl⟩

/-- Claim C1: `submit_score` accepts a submission (hands an entry to the
store) iff the submitted hash equals the SHA-256 hex digest of
`name ++ "TheTurtle" ++ decimal rendering of score`; on any mismatch it
returns the fixed `403` response `"Score rejected: Invalid hash"` — a
constant carrying nothing about the expected hash — and hands no entry
to the store. -/
theorem submit_score_hash_gate (render : Int → String) (now : Int)
    (insertResult : Entry → Except String Unit) (submitted : SubmittedEntry) :
    ((submit_score render now insertResult submitted).2.isSome = true ↔
      submitted.hash =
        sha256.digest (submitted.name ++ "TheTurtle" ++ toString submitted.score)) ∧
    (submitted.hash ≠
        sha256.digest (submitted.name ++ "TheTurtle" ++ toString submitted.score) →
      submit_score render now insertResult submitted =
        ({ status := 403, body := "Score rejected: Invalid hash" }, none)) := by
  by_cases h : sha256.digest (submitted.name ++ "TheTurtle" ++ toString submitted.score) =
      submitted.hash
  · constructor
    · constructor
      · intro _
        exact h.symm
      · intro _
        simp only [submit_score, if_neg (not_ne_iff.mpr h)]
        cases hi : insertResult
            { name := submitted.name, score := submitted.score, datetime := render now } <;>
          simp [hi]
    · intro hne
      exact absurd h.symm hne
  · constructor
    · constructor
      · intro hs
        simp only [submit_score, if_pos h] at hs
        cases hs
      · intro he
        exact absurd he.symm h
    · intro _
      simp only [submit_score, if_pos h]

/-- Claim C1 witness: a correctly hashed submission is accepted, and a
bogus hash yields the fixed `403` rejection with no entry handed over. -/
theorem submit_score_hash_gate_witness :
    (submit_score (fun _ => "now") 0 (fun _ => Except.ok ())
      { name := "Ann", score := 42,
        hash := sha256.digest ("Ann" ++ "TheTurtle" ++ toString (42 : Int)) }).2.isSome = true ∧
    submit_score (fun _ => "now") 0 (fun _ => Except.ok ())
      { name := "Ann", score := 42, hash := "bogus" } =
      ({ status := 403, body := "Score rejected: Invalid hash" }, none) := by
  constructor
  · exact (submit_score_hash_gate (fun _ => "now") 0 (fun _ => Except.ok ()) _).1.mpr rfl
  · exact (submit_score_hash_gate (fun _ => "now") 0 (fun _ => Except.ok ()) _).2 (by decide)

/-- Claim C6: every entry handed to the store carries the submitted name
and score and the server-generated timestamp `render now`; the wire input
`SubmittedEntry` has no datetime field, so the stored timestamp depends
on the server clock alone and is never client-controlled. -/
theorem submit_score_server_timestamp (render : Int → String) (now : Int)
    (insertResult : Entry → Except String Unit) (submitted : SubmittedEntry) :
    ∀ e : Entry, (submit_score render now insertResult submitted).2 = some e →
      e.name = submitted.name ∧ e.score = submitted.score ∧ e.datetime = render now := by
  intro e he
  by_cases h : sha256.digest (submitted.name ++ "TheTurtle" ++ toString submitted.score) =
      submitted.hash
  · simp only [submit_score, if_neg (not_ne_iff.mpr h)] at he
    cases hi : insertResult
        { name := submitted.name, score := submitted.score, datetime := render now } <;>
      rw [hi] at he <;> simp only [Option.some.injEq] at he <;> rw [← he]
    · exact ⟨rfl, rfl, rfl⟩
    · exact ⟨rfl, rfl, rfl⟩
  · simp only [submit_score, if_pos h] at he
    cases he

/-- Claim C6 witness: the accepted submission's stored entry carries the
submitted name and score and the server-rendered timestamp. -/
theorem submit_score_server_timestamp_witness :
    ({ name := "Ann", score := 42, datetime := "2024-05-01 00:00:00 UTC" } : Entry).name = "Ann" ∧
    ({ name := "Ann", score := 42, datetime := "2024-05-01 00:00:00 UTC" } : Entry).score = 42 ∧
    ({ name := "Ann", score := 42, datetime := "2024-05-01 00:00:00 UTC" } : Entry).datetime =
      "2024-05-01 00:00:00 UTC" :=
  submit_score_server_timestamp (fun _ => "2024-05-01 00:00:00 UTC") 0 (fun _ => Except.ok ())
    { name := "Ann", score := 42,
      hash := sha256.digest ("Ann" ++ "TheTurtle" ++ toString (42 : Int)) }
    { name := "Ann", score := 42, datetime := "2024-05-01 00:00:00 UTC" }
    (by decide)

/-- Claim C7: for every validated submission, a successful insert yields
`200` with the fixed body `"Score added"`, a failed insert yields `500`
with exactly the store error's description as body; in both cases exactly
the one entry was handed to the store — no retry is performed. -/
theorem submit_score_insert_outcome (render : Int → String) (now : Int)
    (insertResult : Entry → Except String Unit) (submitted : SubmittedEntry)
    (hvalid : submitted.hash =
      sha256.digest (submitted.name ++ "TheTurtle" ++ toString submitted.score)) :
    (insertResult { name := submitted.name, score := submitted.score, datetime := render now } =
        Except.ok () →
      submit_score render now insertResult submitted =
        ({ status := 200, body := "Score added" },
         some { name := submitted.name, score := submitted.score, datetime := render now })) ∧
    (∀ err : String,
      insertResult { name := submitted.name, score := submitted.score, datetime := render now } =
          Except.error err →
        submit_score render now insertResult submitted =
          ({ status := 500, body := err },
           some { name := submitted.name, score := submitted.score, datetime := render now })) := by
  constructor
  · intro hok
    simp [submit_score, if_neg (not_ne_iff.mpr hvalid.symm), hok]
  · intro err herr
    simp [submit_score, if_neg (not_ne_iff.mpr hvalid.symm), herr]

/-- Claim C7 witness: a failing insert surfaces the store error's text
with status `500`, the single attempted entry unchanged. -/
theorem submit_score_insert_outcome_witness :
    submit_score (fun _ => "T0") 0 (fun _ => Except.error "db down")
      { name := "Ann", score := 42,
        hash := sha256.digest ("Ann" ++ "TheTurtle" ++ toString (42 : Int)) } =
      ({ status := 500, body := "db down" },
       some { name := "Ann", score := 42, datetime := "T0" }) :=
  (submit_score_insert_outcome (fun _ => "T0") 0 (fun _ => Except.error "db down")
    { name := "Ann", score := 42,
      hash := sha256.digest ("Ann" ++ "TheTurtle" ++ toString (42 : Int)) }
    rfl).2 "db down" rfl

/-- Claim C8: submission is not idempotent — submitting the same valid
`(name, score, hash)` twice performs two independent inserts, appending
two stored entries: the store ends as the original list plus two new
occurrences, its length grown by exactly 2. -/
theorem submit_score_twice_appends (render : Int → String) (now1 now2 : Int)
    (submitted : SubmittedEntry) (store : List Entry)
    (hvalid : submitted.hash =
      sha256.digest (submitted.name ++ "TheTurtle" ++ toString submitted.score)) :
    (submit_score_store render now2 submitted
        (submit_score_store render now1 submitted store).2).2 =
      store ++ [{ name := submitted.name, score := submitted.score, datetime := render now1 },
                { name := submitted.name, score := submitted.score, datetime := render now2 }] ∧
    (submit_score_store render now2 submitted
        (submit_score_store render now1 submitted store).2).2.length =
      store.length + 2 := by
  have key : ∀ (now : Int) (st : List Entry), (submit_score_store render now submitted st).2 =
      st ++ [{ name := submitted.name, score := submitted.score, datetime := render now }] := by
    intro now st
    simp [submit_score_store, if_neg (not_ne_iff.mpr hvalid.symm), insert_one]
  constructor
  · rw [key, key, List.append_assoc]
    rfl
  · rw [key, key]
    simp

/-- Claim C8 witness: the same valid submission twice against the empty
store yields two stored occurrences of the entry. -/
theorem submit_score_twice_appends_witness :
    (submit_score_store (fun _ => "T") 0
        { name := "Ann", score := 42,
          hash := sha256.digest ("Ann" ++ "TheTurtle" ++ toString (42 : Int)) }
        (submit_score_store (fun _ => "T") 0
          { name := "Ann", score := 42,
            hash := sha256.digest ("Ann" ++ "TheTurtle" ++ toString (42 : Int)) } []).2).2 =
      [{ name := "Ann", score := 42, datetime := "T" },
       { name := "Ann", score := 42, datetime := "T" }] :=
  (submit_score_twice_appends (fun _ => "T") 0 0
    { name := "Ann", score := 42,
      hash := sha256.digest ("Ann" ++ "TheTurtle" ++ toString (42 : Int)) } [] rfl).1

/-- Claim C9: the rendering used for stored datetime values and for
window bounds (chrono `DateTime<Utc>` `to_string`, modelled by `render`)
is monotone: for valid timestamps with `t1 ≤ t2` chronologically,
`render t1` compares at or below `render t2`, both in the string order
`≤` and under the byte-order comparison `strLe` used by the store's
datetime filter — so the filter's string comparison agrees with
chronological order. -/
theorem render_monotone (t1 t2 : DateTime) (h1 : t1.valid) (h2 : t2.valid)
    (h : t1.chronoLe t2) :
    render t1 ≤ render t2 ∧ strLe (render t1) (render t2) = true := by
  have hle : render t1 ≤ render t2 := by
    rcases h with h | he
    · exact le_of_lt (render_lt_of_chronoLt t1 t2 h1 h2 h)
    · rw [he]
  exact ⟨hle, (strLe_iff_le _ _).mpr hle⟩

/-- Claim C9 witness: two concrete timestamps one second apart. -/
theorem render_monotone_witness :
    render ⟨2024, 5, 1, 12, 0, 0, 0⟩ ≤ render ⟨2024, 5, 1, 12, 0, 1, 500000000⟩ ∧
    strLe (render ⟨2024, 5, 1, 12, 0, 0, 0⟩) (render ⟨2024, 5, 1, 12, 0, 1, 500000000⟩) = true :=
  render_monotone ⟨2024, 5, 1, 12, 0, 0, 0⟩ ⟨2024, 5, 1, 12, 0, 1, 500000000⟩
    (by decide) (by decide) (by decide)

/-- Claim C10: both read handlers `.unwrap()` their store results, so a
failed store read panics the request instead of producing an HTTP
response; whenever the reads succeed the panic branch is unreachable and
both handlers respond with status `200`. -/
theorem read_handlers_unwrap :
    (∀ err : String, get_scores_outcome (Except.error err) = Outcome.panicked) ∧
    (∀ err : String, get_position_outcome (Except.error err) = Outcome.panicked) ∧
    (∀ l : List Entry, get_scores_outcome (Except.ok l) = Outcome.ok 200 l) ∧
    (∀ n : Nat, get_position_outcome (Except.ok n) = Outcome.ok 200 ⟨n + 1⟩) :=
  ⟨fun _ => rfl, fun _ => rfl, fun _ => rfl, fun _ => rfl⟩

end Gurtle
